import Mathlib

/-!
Verification of `src/utils/claudeFormat.js` from escapeWu/antigravity2api-nodejs.

Text is modelled as `List Char`.  The JavaScript string operations used by the
source are reproduced faithfully:

* `s.includes(p)`                  → `containsSub p s`
* `s.replace(p, '')` (p a string literal: first occurrence only)
                                   → `replaceFirst p s`
* `s.replace(/\n$/, '')`           → `dropTrailingNewline s`
* `s.trim()`                       → `trimChars s`
* `s.match(/<think>([\s\S]*?)<\/think>/)` and
  `s.replace(/<think>[\s\S]*?<\/think>\s*/, '')`
                                   → via `splitFirst` (leftmost-lazy match)

The `ClaudeStreamHandler` class is modelled as a state record plus pure
transition functions returning `(new state, emitted events)`.
-/

namespace ClaudeFormat

/-- Result of searching `s` for the first occurrence of `pat`:
`some (pre, post)` with `s = pre ++ pat ++ post` and `pre` minimal. -/
def splitFirst (pat : List Char) : List Char → Option (List Char × List Char)
  | [] => if pat = [] then some ([], []) else none
  | c :: rest =>
    if pat.isPrefixOf (c :: rest) then some ([], (c :: rest).drop pat.length)
    else
      match splitFirst pat rest with
      | some (pre, post) => some (c :: pre, post)
      | none => none

/-- JS `s.includes(pat)`. -/
def containsSub (pat s : List Char) : Bool := (splitFirst pat s).isSome

/-- JS `s.replace(pat, '')` with a string-literal pattern: removes the first
occurrence only. -/
def replaceFirst (pat s : List Char) : List Char :=
  match splitFirst pat s with
  | some (pre, post) => pre ++ post
  | none => s

/-- JS `s.replace(/\n$/, '')`: removes a single trailing newline if present. -/
def dropTrailingNewline (s : List Char) : List Char :=
  if s.getLast? = some '\n' then s.dropLast else s

/-- Whitespace characters stripped by JS `String.prototype.trim` (the subset
that can occur in this development). -/
def isJsWs (c : Char) : Bool :=
  c = ' ' || c = '\t' || c = '\n' || c = '\r'

/-- JS `s.trim()`. -/
def trimChars (s : List Char) : List Char :=
  ((s.dropWhile isJsWs).reverse.dropWhile isJsWs).reverse

/-- The reasoning start marker `<think>`. -/
def startMarker : List Char := ['<', 't', 'h', 'i', 'n', 'k', '>']

/-- The reasoning end marker `</think>`. -/
def endMarker : List Char := ['<', '/', 't', 'h', 'i', 'n', 'k', '>']

/-- One content block of the non-streaming Claude response (`type` is always
`"text"` in the source). -/
structure ContentBlock where
  type : List Char
  text : List Char
  deriving DecidableEq, Repr

/-- The characters of `"text"`. -/
def textType : List Char := ['t', 'e', 'x', 't']

/-- Model of `antigravityToClaudeResponse` (claudeFormat.js lines 10–69),
restricted to the `content` array it builds.  The regex
`/<think>([\s\S]*?)<\/think>/` matches iff a `</think>` occurs after the first
`<think>`; the lazy group takes everything in between.  The replacement regex
additionally eats trailing whitespace (`\s*`), and both extracted parts are
trimmed inside the match branch. -/
def antigravityToClaudeResponse (content : List Char) : List ContentBlock :=
  let extracted :=
    match splitFirst startMarker content with
    | some (pre, rest) =>
      match splitFirst endMarker rest with
      | some (x, post) => (trimChars x, trimChars (pre ++ post.dropWhile isJsWs))
      | none => (([] : List Char), content)
    | none => (([] : List Char), content)
  let thinkingContent := extracted.1
  let mainContent := extracted.2
  let blocks :=
    (if thinkingContent ≠ [] then [ContentBlock.mk textType thinkingContent] else []) ++
    (if mainContent ≠ [] then [ContentBlock.mk textType mainContent] else [])
  if blocks = [] then [ContentBlock.mk textType []] else blocks

/-- The SSE events the stream handler can emit.  Payload fields that are
constant in the source (`role`, `stop_reason`, `delta.type`, …) are omitted;
variable fields are carried as arguments.  Note that `message_start` carries
the literal usage pair written by the source and `message_delta` carries only
`output_tokens`, exactly as in claudeFormat.js. -/
inductive Event where
  | message_start (input_tokens output_tokens : Nat)
  | content_block_start (index : Nat)
  | content_block_delta (index : Nat) (text : List Char)
  | content_block_stop (index : Nat)
  | message_delta (output_tokens : Nat)
  | message_stop
  deriving DecidableEq, Repr

/-- Mutable fields of `ClaudeStreamHandler` (constructor, lines 107–118). -/
structure HandlerState where
  contentIndex : Nat
  hasStarted : Bool
  thinkingBuffer : List Char
  inThinking : Bool
  hasContent : Bool
  totalInputTokens : Nat
  totalOutputTokens : Nat
  deriving DecidableEq, Repr

/-- The state set up by the constructor. -/
def initState : HandlerState :=
  { contentIndex := 0, hasStarted := false, thinkingBuffer := [],
    inThinking := false, hasContent := false,
    totalInputTokens := 0, totalOutputTokens := 0 }

/-- Model of `start()` (lines 120–140). -/
def startHandler (st : HandlerState) : HandlerState × List Event :=
  ({ st with hasStarted := true }, [Event.message_start 0 0])

/-- Model of `sendContentBlock(text)` (lines 173–196): lazily emits
`content_block_start` before the first delta. -/
def sendContentBlock (st : HandlerState) (text : List Char) :
    HandlerState × List Event :=
  if st.hasContent then
    (st, [Event.content_block_delta st.contentIndex text])
  else
    ({ st with hasContent := true },
     [Event.content_block_start st.contentIndex,
      Event.content_block_delta st.contentIndex text])

/-- Model of `handleContent(content)` (lines 142–171). -/
def handleContent (st : HandlerState) (content : List Char) :
    HandlerState × List Event :=
  if containsSub startMarker content then
    ({ st with inThinking := true,
               thinkingBuffer := dropTrailingNewline (replaceFirst startMarker content) },
     [])
  else if st.inThinking then
    if containsSub endMarker content then
      let buf := st.thinkingBuffer ++ dropTrailingNewline (replaceFirst endMarker content)
      let st1 := { st with inThinking := false, thinkingBuffer := [] }
      if trimChars buf ≠ [] then sendContentBlock st1 (trimChars buf)
      else (st1, [])
    else
      ({ st with thinkingBuffer := st.thinkingBuffer ++ content }, [])
  else
    if content ≠ [] then sendContentBlock st content else (st, [])

/-- A JS usage object as it reaches `handleUsage`: any of the four field
names the spec or the source mention may be present or absent. -/
structure Usage where
  promptTokens : Option Nat := none
  completionTokens : Option Nat := none
  prompt_tokens : Option Nat := none
  completion_tokens : Option Nat := none
  deriving DecidableEq, Repr

/-- Model of `handleUsage(usage)` (lines 198–201).  The source reads
`usage.prompt_tokens || 0` and `usage.completion_tokens || 0`: an absent
field yields 0 (`getD 0`; on naturals `0 || 0 = 0` agrees with JS falsiness). -/
def handleUsage (st : HandlerState) (usage : Usage) : HandlerState :=
  { st with totalInputTokens := usage.prompt_tokens.getD 0,
            totalOutputTokens := usage.completion_tokens.getD 0 }

/-- Model of `end()` (lines 203–235): flushes an unterminated thinking buffer,
closes the block if one was opened, then emits the terminal events.  Note that
the source neither clears `thinkingBuffer`/`inThinking` nor sets any
`finished` guard. -/
def endHandler (st : HandlerState) : HandlerState × List Event :=
  let flushed :=
    if st.inThinking ∧ trimChars st.thinkingBuffer ≠ [] then
      sendContentBlock st (trimChars st.thinkingBuffer)
    else (st, [])
  let st1 := flushed.1
  let stopEvents :=
    if st1.hasContent then [Event.content_block_stop st1.contentIndex] else []
  (st1, flushed.2 ++ stopEvents ++
        [Event.message_delta st1.totalOutputTokens, Event.message_stop])

/-- One call made by the request handler between `start()` and `end()`. -/
inductive Op where
  | content (s : List Char)
  | usage (u : Usage)
  deriving DecidableEq, Repr

/-- Dispatch one operation. -/
def applyOp (st : HandlerState) : Op → HandlerState × List Event
  | Op.content s => handleContent st s
  | Op.usage u => (handleUsage st u, [])

/-- Process a list of operations, concatenating the emitted events. -/
def processOps (st : HandlerState) : List Op → HandlerState × List Event
  | [] => (st, [])
  | op :: ops =>
    let r1 := applyOp st op
    let r2 := processOps r1.1 ops
    (r2.1, r1.2 ++ r2.2)

/-- A complete streaming response: `start()`, the given operations, `end()`. -/
def runOps (ops : List Op) : List Event :=
  let r0 := startHandler initState
  let r1 := processOps r0.1 ops
  let r2 := endHandler r1.1
  r0.2 ++ r1.2 ++ r2.2

/-- A complete streaming response driven by content fragments only. -/
def runStream (frags : List (List Char)) : List Event :=
  runOps (frags.map Op.content)

/-- Text of a delta event, if the event is one. -/
def deltaText : Event → Option (List Char)
  | Event.content_block_delta _ t => some t
  | _ => none

/-- The texts of all `content_block_delta` events, in order. -/
def deltaTexts (evs : List Event) : List (List Char) := evs.filterMap deltaText

/-- Payload of a `message_delta` event, if the event is one. -/
def messageDeltaTokens : Event → Option Nat
  | Event.message_delta n => some n
  | _ => none

/-- Phases of the lifecycle automaton used to state the event-ordering claim:
`expMessageStart` — nothing emitted yet, only `message_start` may come;
`noBlock` — `message_start` seen, no content block opened;
`needDelta` — `content_block_start` just seen, a delta must follow at once;
`inBlock` — at least one delta emitted, block still open;
`blockClosed` — `content_block_stop` seen;
`afterMessageDelta` — `message_delta` seen;
`accepted` — `message_stop` seen, nothing may follow. -/
inductive Phase where
  | expMessageStart
  | noBlock
  | needDelta
  | inBlock
  | blockClosed
  | afterMessageDelta
  | accepted
  deriving DecidableEq, Repr

/-- Transition function of the lifecycle automaton.  It accepts exactly the
event sequences in which `message_start` comes first; `content_block_start`
appears at most once, after `message_start` and immediately before the first
`content_block_delta`; every delta lies between `content_block_start` and
`content_block_stop`; `content_block_stop` appears iff `content_block_start`
does, after all deltas and before `message_delta`; and `message_stop` is the
last event. -/
def stepPhase : Phase → Event → Option Phase
  | Phase.expMessageStart, Event.message_start _ _ => some Phase.noBlock
  | Phase.noBlock, Event.content_block_start _ => some Phase.needDelta
  | Phase.noBlock, Event.message_delta _ => some Phase.afterMessageDelta
  | Phase.needDelta, Event.content_block_delta _ _ => some Phase.inBlock
  | Phase.inBlock, Event.content_block_delta _ _ => some Phase.inBlock
  | Phase.inBlock, Event.content_block_stop _ => some Phase.blockClosed
  | Phase.blockClosed, Event.message_delta _ => some Phase.afterMessageDelta
  | Phase.afterMessageDelta, Event.message_stop => some Phase.accepted
  | _, _ => none

/-- Run the lifecycle automaton over a list of events. -/
def runPhase (p : Phase) : List Event → Option Phase
  | [] => some p
  | e :: evs =>
    match stepPhase p e with
    | some q => runPhase q evs
    | none => none

/-- An event sequence respects the lifecycle ordering iff the automaton,
started fresh, consumes it entirely and ends in the accepting phase. -/
def wellOrdered (evs : List Event) : Prop :=
  runPhase Phase.expMessageStart evs = some Phase.accepted

/-- The automaton phase corresponding to a mid-stream handler state: a block
is open iff `hasContent` is set. -/
def phaseOf (hasContent : Bool) : Phase :=
  if hasContent then Phase.inBlock else Phase.noBlock

/-- Erase the input-token information from a usage object. -/
def scrubUsage (u : Usage) : Usage :=
  { u with promptTokens := none, prompt_tokens := none }

/-- Erase the input-token information carried by an operation. -/
def scrubOp : Op → Op
  | Op.content s => Op.content s
  | Op.usage u => Op.usage (scrubUsage u)

/-- Erase the recorded input-token count from a handler state. -/
def scrubState (st : HandlerState) : HandlerState :=
  { st with totalInputTokens := 0 }

/-! Helper lemmas about the string primitives and the emission paths. -/

theorem ne_nil_of_splitFirst (pat c pre post : List Char) (hpat : pat ≠ [])
    (h : splitFirst pat c = some (pre, post)) : c ≠ [] := by
  intro hc
  subst hc
  simp [splitFirst, hpat] at h

theorem ne_nil_of_containsSub (pat c : List Char) (hpat : pat ≠ [])
    (h : containsSub pat c = true) : c ≠ [] := by
  intro hc
  subst hc
  simp [containsSub, splitFirst, hpat] at h

theorem containsSub_of_splitFirst (pat c pre post : List Char)
    (h : splitFirst pat c = some (pre, post)) : containsSub pat c = true := by
  simp [containsSub, h]

theorem replaceFirst_of_splitFirst (pat c pre post : List Char)
    (h : splitFirst pat c = some (pre, post)) : replaceFirst pat c = pre ++ post := by
  simp [replaceFirst, h]

theorem sendContentBlock_fst (st : HandlerState) (t : List Char) :
    (sendContentBlock st t).1 = { st with hasContent := true } := by
  obtain ⟨n, b1, tb, b2, b3, t1, t2⟩ := st
  by_cases h : b3 <;> simp [sendContentBlock, h]

theorem deltaTexts_sendContentBlock (st : HandlerState) (t : List Char) :
    deltaTexts (sendContentBlock st t).2 = [t] := by
  by_cases h : st.hasContent <;>
    simp [sendContentBlock, h, deltaTexts, deltaText]

theorem handleContent_start (st : HandlerState) (c : List Char)
    (h : containsSub startMarker c = true) :
    handleContent st c =
      ({ st with inThinking := true,
                 thinkingBuffer := dropTrailingNewline (replaceFirst startMarker c) }, []) := by
  simp [handleContent, h]

theorem handleContent_passive (st : HandlerState) (c : List Char)
    (h1 : st.inThinking = true) (h2 : containsSub startMarker c = false)
    (h3 : containsSub endMarker c = false) :
    handleContent st c = ({ st with thinkingBuffer := st.thinkingBuffer ++ c }, []) := by
  simp [handleContent, h1, h2, h3]

theorem handleContent_endMark (st : HandlerState) (c : List Char)
    (h1 : st.inThinking = true) (h2 : containsSub startMarker c = false)
    (h3 : containsSub endMarker c = true) :
    handleContent st c =
      (if trimChars (st.thinkingBuffer ++ dropTrailingNewline (replaceFirst endMarker c)) ≠ [] then
        sendContentBlock { st with inThinking := false, thinkingBuffer := [] }
          (trimChars (st.thinkingBuffer ++ dropTrailingNewline (replaceFirst endMarker c)))
       else ({ st with inThinking := false, thinkingBuffer := [] }, [])) := by
  simp [handleContent, h1, h2, h3]

theorem handleContent_visible (st : HandlerState) (c : List Char)
    (h1 : st.inThinking = false) (h2 : containsSub startMarker c = false)
    (h3 : c ≠ []) :
    handleContent st c = sendContentBlock st c := by
  simp [handleContent, h1, h2, h3]

/-! Claim theorems. -/

/-- C9: the non-streaming assembly of `<think>A</think>B` yields the two text
blocks `A` and `B`; of `B` alone the single block `B`; and of the empty string
the single empty text block. -/
theorem C9_nonstreaming_examples :
    antigravityToClaudeResponse (("<think>A</think>B").toList)
        = [ContentBlock.mk textType (("A").toList),
           ContentBlock.mk textType (("B").toList)] ∧
    antigravityToClaudeResponse (("B").toList)
        = [ContentBlock.mk textType (("B").toList)] ∧
    antigravityToClaudeResponse [] = [ContentBlock.mk textType []] :=
  ⟨by decide, by decide, by decide⟩

/-- C6 counterexample: on `<think>A` — a start marker with no matching end
marker — the non-streaming assembly returns the single literal visible block
`<think>A`; it does not produce the reasoning block `A` the claim requires. -/
theorem C6_counterexample :
    antigravityToClaudeResponse (("<think>A").toList)
        = [ContentBlock.mk textType (("<think>A").toList)] ∧
    antigravityToClaudeResponse (("<think>A").toList)
        ≠ [ContentBlock.mk textType (("A").toList)] :=
  ⟨by decide, by decide⟩

/-- C6 amended: when the input contains a start marker with no end marker
after it, the non-streaming assembly treats the unmatched marker as literal
text, returning the whole input as the single visible block; reasoning is
extracted only when a matching end marker is present. -/
theorem C6_amended (c pre rest : List Char)
    (h1 : splitFirst startMarker c = some (pre, rest))
    (h2 : splitFirst endMarker rest = none) :
    antigravityToClaudeResponse c = [ContentBlock.mk textType c] := by
  have hc : c ≠ [] := ne_nil_of_splitFirst startMarker c pre rest (by decide) h1
  simp [antigravityToClaudeResponse, h1, h2, hc]

/-- Witness for C6 amended at the concrete input `<think>A`. -/
theorem C6_amended_witness :
    splitFirst startMarker (("<think>A").toList) = some ([], ("A").toList) ∧
    splitFirst endMarker (("A").toList) = none ∧
    antigravityToClaudeResponse (("<think>A").toList)
      = [ContentBlock.mk textType (("<think>A").toList)] :=
  ⟨by decide, by decide,
   C6_amended (("<think>A").toList) [] (("A").toList) (by decide) (by decide)⟩

/-- C7: a fragment arriving in normal mode that contains the end marker but no
start marker is handled by the ordinary visible path (total, no failure): it
is emitted verbatim, marker included, as a single visible delta. -/
theorem C7_fail_open (st : HandlerState) (c : List Char)
    (h1 : st.inThinking = false) (h2 : containsSub endMarker c = true)
    (h3 : containsSub startMarker c = false) :
    handleContent st c = sendContentBlock st c ∧
    deltaTexts (handleContent st c).2 = [c] := by
  have hc : c ≠ [] := ne_nil_of_containsSub endMarker c (by decide) h2
  have h := handleContent_visible st c h1 h3 hc
  exact ⟨h, by rw [h]; exact deltaTexts_sendContentBlock st c⟩

/-- Witness for C7 at the concrete fragment `</think>Y`. -/
theorem C7_fail_open_witness :
    initState.inThinking = false ∧
    containsSub endMarker (("</think>Y").toList) = true ∧
    containsSub startMarker (("</think>Y").toList) = false ∧
    deltaTexts (handleContent initState (("</think>Y").toList)).2
      = [("</think>Y").toList] :=
  ⟨rfl, by decide, by decide,
   (C7_fail_open initState (("</think>Y").toList) rfl (by decide) (by decide)).2⟩

/-- C1 counterexample: the two fragmentations of `<think>A</think>B` shown
here concatenate to the same string, yet the single-fragment delivery emits
the one delta `A</think>B` while the four-fragment delivery emits the deltas
`A` and `B` — the final deltas depend on the split points. -/
theorem C1_counterexample :
    ([("<think>A</think>B").toList]).flatten = ("<think>A</think>B").toList ∧
    ([("<think>").toList, ("A").toList, ("</think>").toList, ("B").toList]).flatten
        = ("<think>A</think>B").toList ∧
    deltaTexts (runStream [("<think>A</think>B").toList]) = [("A</think>B").toList] ∧
    deltaTexts (runStream
        [("<think>").toList, ("A").toList, ("</think>").toList, ("B").toList])
        = [("A").toList, ("B").toList] :=
  ⟨by decide, by decide, by decide, by decide⟩

/-- C4 counterexample: `end()` has no idempotence guard — called on the fresh
state it emits `message_delta, message_stop`, and called a second time on the
resulting state it emits the very same terminal sequence again. -/
theorem C4_counterexample :
    (endHandler initState).2 = [Event.message_delta 0, Event.message_stop] ∧
    (endHandler (endHandler initState).1).2
      = [Event.message_delta 0, Event.message_stop] :=
  ⟨by decide, by decide⟩

/-- C5 counterexample: a usage record carrying the claim's field names
`promptTokens`/`completionTokens` (and no snake_case fields) is ignored by
`handleUsage`, which reads `prompt_tokens`/`completion_tokens`; the final
`message_delta` then reports 0 output tokens, not 34. -/
theorem C5_counterexample :
    runOps [Op.usage (Usage.mk (some 12) (some 34) none none)]
      = [Event.message_start 0 0, Event.message_delta 0, Event.message_stop] ∧
    Event.message_delta 34 ∉ runOps [Op.usage (Usage.mk (some 12) (some 34) none none)] :=
  ⟨by decide, by decide⟩

/-- C8 counterexample: the reasoning piece `  A  ` (spaces, not newlines,
none adjacent to a marker) is emitted as `A` — all leading and trailing
whitespace is stripped, not just marker-adjacent newlines — while the visible
piece ` B ` is passed through verbatim. -/
theorem C8_counterexample :
    deltaTexts (runStream
        [("<think>").toList, ("  A  ").toList, ("</think>").toList, (" B ").toList])
      = [("A").toList, (" B ").toList] ∧
    ("A").toList ≠ ("  A  ").toList :=
  ⟨by decide, by decide⟩

/-! Lifecycle automaton lemmas for the event-ordering claim. -/

theorem runPhase_append (p : Phase) (a b : List Event) :
    runPhase p (a ++ b) = (runPhase p a).bind (fun q => runPhase q b) := by
  induction a generalizing p with
  | nil => rfl
  | cons e a ih =>
    simp only [List.cons_append, runPhase]
    cases h : stepPhase p e with
    | none => rfl
    | some q => exact ih q

theorem runPhase_append_some (p q r : Phase) (a b : List Event)
    (ha : runPhase p a = some q) (hb : runPhase q b = some r) :
    runPhase p (a ++ b) = some r := by
  rw [runPhase_append, ha]
  exact hb

theorem sendContentBlock_runPhase (st : HandlerState) (t : List Char) :
    runPhase (phaseOf st.hasContent) (sendContentBlock st t).2
      = some (phaseOf (sendContentBlock st t).1.hasContent) := by
  by_cases h : st.hasContent <;>
    simp [sendContentBlock, h, phaseOf, runPhase, stepPhase]

theorem handleContent_runPhase (st : HandlerState) (c : List Char) :
    runPhase (phaseOf st.hasContent) (handleContent st c).2
      = some (phaseOf (handleContent st c).1.hasContent) := by
  by_cases h1 : containsSub startMarker c = true
  · rw [handleContent_start st c h1]
    rfl
  · have h1f : containsSub startMarker c = false := Bool.eq_false_iff.mpr h1
    by_cases h2 : st.inThinking = true
    · by_cases h3 : containsSub endMarker c = true
      · rw [handleContent_endMark st c h2 h1f h3]
        by_cases h4 :
            trimChars (st.thinkingBuffer ++ dropTrailingNewline (replaceFirst endMarker c)) ≠ []
        · rw [if_pos h4]
          exact sendContentBlock_runPhase
            { st with inThinking := false, thinkingBuffer := [] } _
        · rw [if_neg h4]
          rfl
      · have h3f : containsSub endMarker c = false := Bool.eq_false_iff.mpr h3
        rw [handleContent_passive st c h2 h1f h3f]
        rfl
    · have h2f : st.inThinking = false := Bool.eq_false_iff.mpr h2
      by_cases h4 : c = []
      · subst h4
        rw [show handleContent st [] = (st, []) from by simp [handleContent, h1f, h2f]]
        rfl
      · rw [handleContent_visible st c h2f h1f h4]
        exact sendContentBlock_runPhase _ _

theorem processOps_runPhase (ops : List Op) (st : HandlerState) :
    runPhase (phaseOf st.hasContent) (processOps st ops).2
      = some (phaseOf (processOps st ops).1.hasContent) := by
  induction ops generalizing st with
  | nil => rfl
  | cons op ops ih =>
    show runPhase (phaseOf st.hasContent)
        ((applyOp st op).2 ++ (processOps (applyOp st op).1 ops).2) = _
    refine runPhase_append_some _ (phaseOf (applyOp st op).1.hasContent) _ _ _ ?_ (ih _)
    cases op with
    | content s => exact handleContent_runPhase st s
    | usage u => rfl

theorem endHandler_runPhase (st : HandlerState) :
    runPhase (phaseOf st.hasContent) (endHandler st).2 = some Phase.accepted := by
  by_cases h1 : st.inThinking ∧ trimChars st.thinkingBuffer ≠ []
  · by_cases h2 : st.hasContent <;>
      simp [endHandler, h1, h2, sendContentBlock, phaseOf, runPhase, stepPhase]
  · by_cases h2 : st.hasContent <;>
      simp [endHandler, h1, h2, phaseOf, runPhase, stepPhase]

theorem runOps_wellOrdered (ops : List Op) : wellOrdered (runOps ops) := by
  show runPhase Phase.expMessageStart
      ((startHandler initState).2 ++ (processOps (startHandler initState).1 ops).2 ++
        (endHandler (processOps (startHandler initState).1 ops).1).2) = some Phase.accepted
  rw [List.append_assoc]
  refine runPhase_append_some _ Phase.noBlock _ _ _ rfl ?_
  exact runPhase_append_some _ _ _ _ _
    (processOps_runPhase ops (startHandler initState).1)
    (endHandler_runPhase _)

/-- C3: for every sequence of fragments fed between `start()` and `end()`,
the emitted events are accepted by the lifecycle automaton — `message_start`
comes first, `content_block_start` appears at most once, lazily, immediately
before the first `content_block_delta`, `content_block_stop` appears iff
`content_block_start` did, after all deltas and before `message_delta`, and
`message_stop` is the last event. -/
theorem C3_event_ordering (frags : List (List Char)) :
    wellOrdered (runStream frags) ∧
    (runStream frags).head? = some (Event.message_start 0 0) :=
  ⟨runOps_wellOrdered (frags.map Op.content), rfl⟩

/-! Event-shape lemmas: the mid-stream path emits only block events, and the
terminal path emits exactly one `message_delta` and a final `message_stop`. -/

theorem sendContentBlock_events (st : HandlerState) (t : List Char) :
    (sendContentBlock st t).2 = [Event.content_block_delta st.contentIndex t] ∨
    (sendContentBlock st t).2
      = [Event.content_block_start st.contentIndex,
         Event.content_block_delta st.contentIndex t] := by
  by_cases h : st.hasContent <;> simp [sendContentBlock, h]

theorem handleContent_events_cases (st : HandlerState) (c : List Char) :
    (handleContent st c).2 = [] ∨
    (∃ t, (handleContent st c).2 = [Event.content_block_delta st.contentIndex t]) ∨
    (∃ t, (handleContent st c).2
        = [Event.content_block_start st.contentIndex,
           Event.content_block_delta st.contentIndex t]) := by
  by_cases h1 : containsSub startMarker c = true
  · rw [handleContent_start st c h1]
    exact Or.inl rfl
  · have h1f : containsSub startMarker c = false := Bool.eq_false_iff.mpr h1
    by_cases h2 : st.inThinking = true
    · by_cases h3 : containsSub endMarker c = true
      · rw [handleContent_endMark st c h2 h1f h3]
        by_cases h4 :
            trimChars (st.thinkingBuffer ++ dropTrailingNewline (replaceFirst endMarker c)) ≠ []
        · rw [if_pos h4]
          rcases sendContentBlock_events
              { st with inThinking := false, thinkingBuffer := [] } (trimChars
                (st.thinkingBuffer ++ dropTrailingNewline (replaceFirst endMarker c))) with
            h | h
          · exact Or.inr (Or.inl ⟨_, h⟩)
          · exact Or.inr (Or.inr ⟨_, h⟩)
        · rw [if_neg h4]
          exact Or.inl rfl
      · rw [handleContent_passive st c h2 h1f (Bool.eq_false_iff.mpr h3)]
        exact Or.inl rfl
    · have h2f : st.inThinking = false := Bool.eq_false_iff.mpr h2
      by_cases h4 : c = []
      · subst h4
        rw [show handleContent st [] = (st, []) from by simp [handleContent, h1f, h2f]]
        exact Or.inl rfl
      · rw [handleContent_visible st c h2f h1f h4]
        rcases sendContentBlock_events st c with h | h
        · exact Or.inr (Or.inl ⟨_, h⟩)
        · exact Or.inr (Or.inr ⟨_, h⟩)

theorem handleContent_no_message_start (st : HandlerState) (c : List Char)
    (i o : Nat) : Event.message_start i o ∉ (handleContent st c).2 := by
  rcases handleContent_events_cases st c with h | ⟨t, h⟩ | ⟨t, h⟩ <;> simp [h]

theorem processOps_no_message_start (ops : List Op) (st : HandlerState)
    (i o : Nat) : Event.message_start i o ∉ (processOps st ops).2 := by
  induction ops generalizing st with
  | nil => simp [processOps]
  | cons op ops ih =>
    show Event.message_start i o ∉
      (applyOp st op).2 ++ (processOps (applyOp st op).1 ops).2
    intro hmem
    rcases List.mem_append.mp hmem with h | h
    · cases op with
      | content s => exact handleContent_no_message_start st s i o h
      | usage u => simp [applyOp] at h
    · exact ih _ h

theorem endHandler_no_message_start (st : HandlerState) (i o : Nat) :
    Event.message_start i o ∉ (endHandler st).2 := by
  by_cases h1 : st.inThinking ∧ trimChars st.thinkingBuffer ≠ [] <;>
    by_cases h2 : st.hasContent <;>
      simp [endHandler, sendContentBlock, h1, h2]

theorem runOps_message_start (ops : List Op) (i o : Nat)
    (h : Event.message_start i o ∈ runOps ops) : i = 0 ∧ o = 0 := by
  have hshape : runOps ops
      = Event.message_start 0 0 ::
          ((processOps (startHandler initState).1 ops).2 ++
           (endHandler (processOps (startHandler initState).1 ops).1).2) := rfl
  rw [hshape] at h
  rcases List.mem_cons.mp h with h | h
  · injection h with h1 h2
    exact ⟨h1, h2⟩
  · rcases List.mem_append.mp h with h | h
    · exact absurd h (processOps_no_message_start ops _ i o)
    · exact absurd h (endHandler_no_message_start _ i o)

theorem endHandler_message_stop (st : HandlerState) :
    Event.message_stop ∈ (endHandler st).2 := by
  by_cases h1 : st.inThinking ∧ trimChars st.thinkingBuffer ≠ [] <;>
    by_cases h2 : st.hasContent <;>
      simp [endHandler, sendContentBlock, h1, h2]

theorem messageDeltaTokens_endHandler (st : HandlerState) :
    List.filterMap messageDeltaTokens (endHandler st).2 = [st.totalOutputTokens] := by
  by_cases h1 : st.inThinking ∧ trimChars st.thinkingBuffer ≠ [] <;>
    by_cases h2 : st.hasContent <;>
      simp [endHandler, sendContentBlock, h1, h2, messageDeltaTokens]

/-- C4 amended: `end()` carries no `finished` guard, so a second call is
neither a no-op nor an error: from every state, the first call emits
`message_stop` and a second call emits `message_stop` again — the terminal
sequence is duplicated, events are emitted after the first `end()`. -/
theorem C4_amended (st : HandlerState) :
    Event.message_stop ∈ (endHandler st).2 ∧
    Event.message_stop ∈ (endHandler (endHandler st).1).2 ∧
    (endHandler (endHandler st).1).2 ≠ [] :=
  ⟨endHandler_message_stop st, endHandler_message_stop _,
   List.ne_nil_of_mem (endHandler_message_stop _)⟩

/-- C5 amended: `handleUsage` reads the snake_case fields `prompt_tokens` and
`completion_tokens` (not the claim's `promptTokens`/`completionTokens`).
With that correction the claim holds: after `handleUsage u`, `end()` emits
exactly one `message_delta`, carrying `u.completion_tokens` (default 0);
repeated `handleUsage` calls are last-write-wins; and every `message_start`
ever emitted carries usage `{input_tokens: 0, output_tokens: 0}`. -/
theorem C5_amended :
    (∀ (st : HandlerState) (u : Usage),
        List.filterMap messageDeltaTokens (endHandler (handleUsage st u)).2
          = [u.completion_tokens.getD 0]) ∧
    (∀ (st : HandlerState) (u1 u2 : Usage),
        handleUsage (handleUsage st u1) u2 = handleUsage st u2) ∧
    (∀ (ops : List Op) (i o : Nat),
        Event.message_start i o ∈ runOps ops → i = 0 ∧ o = 0) := by
  refine ⟨?_, ?_, runOps_message_start⟩
  · intro st u
    rw [messageDeltaTokens_endHandler]
    rfl
  · intro st u1 u2
    rfl

/-- Witness for C5 amended at concrete inputs: snake_case usage
`{prompt_tokens: 12, completion_tokens: 34}` produces `message_delta` 34,
two successive usage records keep the later one, and the `message_start` of
an empty run carries `(0, 0)`. -/
theorem C5_amended_witness :
    List.filterMap messageDeltaTokens
        (endHandler (handleUsage initState (Usage.mk none none (some 12) (some 34)))).2
      = [(some 34 : Option Nat).getD 0] ∧
    handleUsage (handleUsage initState (Usage.mk none none (some 1) (some 2)))
        (Usage.mk none none (some 12) (some 34))
      = handleUsage initState (Usage.mk none none (some 12) (some 34)) ∧
    (Event.message_start 0 0 ∈ runOps [] ∧ (0 = 0 ∧ 0 = 0)) :=
  ⟨C5_amended.1 initState (Usage.mk none none (some 12) (some 34)),
   C5_amended.2.1 initState (Usage.mk none none (some 1) (some 2))
     (Usage.mk none none (some 12) (some 34)),
   by decide, C5_amended.2.2 [] 0 0 (by decide)⟩

/-! Scrub lemmas: no emitted event depends on the recorded input-token
count. -/

theorem handleContent_scrub (st : HandlerState) (c : List Char) :
    handleContent (scrubState st) c
      = (scrubState (handleContent st c).1, (handleContent st c).2) := by
  obtain ⟨n, b1, tb, b2, b3, t1, t2⟩ := st
  dsimp only [handleContent, scrubState, sendContentBlock]
  split_ifs <;> rfl

theorem applyOp_scrub (st : HandlerState) (op : Op) :
    applyOp (scrubState st) (scrubOp op)
      = (scrubState (applyOp st op).1, (applyOp st op).2) := by
  cases op with
  | content s => exact handleContent_scrub st s
  | usage u => rfl

theorem processOps_scrub (ops : List Op) (st : HandlerState) :
    processOps (scrubState st) (ops.map scrubOp)
      = (scrubState (processOps st ops).1, (processOps st ops).2) := by
  induction ops generalizing st with
  | nil => rfl
  | cons op ops ih =>
    simp only [List.map_cons, processOps, applyOp_scrub, ih]

theorem endHandler_scrub (st : HandlerState) :
    endHandler (scrubState st) = (scrubState (endHandler st).1, (endHandler st).2) := by
  obtain ⟨n, b1, tb, b2, b3, t1, t2⟩ := st
  dsimp only [endHandler, scrubState, sendContentBlock]
  split_ifs <;> rfl

theorem runOps_scrub (ops : List Op) : runOps (ops.map scrubOp) = runOps ops := by
  have h1 := processOps_scrub ops (startHandler initState).1
  have h2 := endHandler_scrub (processOps (startHandler initState).1 ops).1
  show (startHandler initState).2
      ++ (processOps (scrubState (startHandler initState).1) (ops.map scrubOp)).2
      ++ (endHandler (processOps (scrubState (startHandler initState).1) (ops.map scrubOp)).1).2
    = (startHandler initState).2
      ++ (processOps (startHandler initState).1 ops).2
      ++ (endHandler (processOps (startHandler initState).1 ops).1).2
  rw [h1]
  dsimp only
  rw [h2]

/-- C10: the recorded input-token count is observationally dead — erasing all
input-token information from the operations (`scrubOp`) leaves the emitted
event sequence unchanged, and every `message_start` ever emitted carries the
literal usage `{input_tokens: 0, output_tokens: 0}`.  (By construction of
`Event`, `message_delta` is the only other usage-bearing event and carries
`output_tokens` only.) -/
theorem C10_input_tokens_unobservable (ops : List Op) :
    runOps ops = runOps (ops.map scrubOp) ∧
    (∀ i o, Event.message_start i o ∈ runOps ops → i = 0 ∧ o = 0) :=
  ⟨(runOps_scrub ops).symm, fun i o h => runOps_message_start ops i o h⟩

/-- Witness for C10 at a concrete run containing a usage record with
input tokens. -/
theorem C10_witness :
    runOps [Op.usage (Usage.mk none none (some 5) (some 7))]
      = runOps (([Op.usage (Usage.mk none none (some 5) (some 7))]).map scrubOp) ∧
    (Event.message_start 0 0 ∈ runOps [Op.usage (Usage.mk none none (some 5) (some 7))] ∧
     (0 = 0 ∧ 0 = 0)) :=
  ⟨(C10_input_tokens_unobservable [Op.usage (Usage.mk none none (some 5) (some 7))]).1,
   by decide,
   (C10_input_tokens_unobservable [Op.usage (Usage.mk none none (some 5) (some 7))]).2
     0 0 (by decide)⟩

/-- C2 counterexample: in normal mode the fragment `A<think>B` emits no
visible delta for the pre-marker text `A` — the whole remainder `AB` lands
in the reasoning buffer; and in a stream where `B</think>C` arrives in
in-reasoning mode, the post-marker text `C` is not re-classified as visible:
the single delta is the merged reasoning flush `BC`. -/
theorem C2_counterexample :
    deltaTexts (handleContent initState (("A<think>B").toList)).2 = [] ∧
    (handleContent initState (("A<think>B").toList)).1.thinkingBuffer
      = ("AB").toList ∧
    deltaTexts (runStream [("<think>").toList, ("B</think>C").toList])
      = [("BC").toList] :=
  ⟨by decide, by decide, by decide⟩

/-- C2 amended: the classifier does not slice around markers.  In normal
mode, a fragment containing the start marker has the first marker occurrence
removed and the ENTIRE remainder — the text before the marker included —
becomes the new reasoning buffer (one trailing fragment newline stripped);
nothing is emitted, so pre-marker text is never a visible piece.  In
in-reasoning mode, a fragment containing the end marker (and no start
marker) has the first end-marker occurrence removed and the entire
remainder — the text after the marker included — appended to the buffer;
mode reverts to normal, the buffer is cleared, and the trimmed buffer is the
only delta emitted (if non-blank): post-marker text is folded into the
reasoning flush, not re-classified as visible. -/
theorem C2_amended :
    (∀ (st : HandlerState) (c pre post : List Char), st.inThinking = false →
        splitFirst startMarker c = some (pre, post) →
        handleContent st c
          = ({ st with inThinking := true,
                       thinkingBuffer := dropTrailingNewline (pre ++ post) }, [])) ∧
    (∀ (st : HandlerState) (c pre post : List Char), st.inThinking = true →
        containsSub startMarker c = false →
        splitFirst endMarker c = some (pre, post) →
        (handleContent st c).1.inThinking = false ∧
        (handleContent st c).1.thinkingBuffer = [] ∧
        deltaTexts (handleContent st c).2
          = (if trimChars (st.thinkingBuffer ++ dropTrailingNewline (pre ++ post)) = []
             then []
             else [trimChars (st.thinkingBuffer ++ dropTrailingNewline (pre ++ post))])) := by
  constructor
  · intro st c pre post _h hsp
    rw [handleContent_start st c (containsSub_of_splitFirst _ _ _ _ hsp),
        replaceFirst_of_splitFirst _ _ _ _ hsp]
  · intro st c pre post h1 h2 hsp
    rw [handleContent_endMark st c h1 h2 (containsSub_of_splitFirst _ _ _ _ hsp),
        replaceFirst_of_splitFirst _ _ _ _ hsp]
    by_cases h4 : trimChars (st.thinkingBuffer ++ dropTrailingNewline (pre ++ post)) = []
    · rw [if_neg (not_not_intro h4), if_pos h4]
      exact ⟨rfl, rfl, rfl⟩
    · rw [if_pos h4, if_neg h4]
      refine ⟨?_, ?_, ?_⟩
      · rw [sendContentBlock_fst]
      · rw [sendContentBlock_fst]
      · exact deltaTexts_sendContentBlock _ _

/-- Witness for C2 amended: `A<think>B` in normal mode buffers `AB` and
emits nothing, and `B</think>C` in in-reasoning mode flushes `BC` as the
single delta. -/
theorem C2_amended_witness :
    (initState.inThinking = false ∧
     splitFirst startMarker (("A<think>B").toList)
       = some (("A").toList, ("B").toList) ∧
     handleContent initState (("A<think>B").toList)
       = ((⟨0, false, dropTrailingNewline ((("A").toList) ++ (("B").toList)),
            true, false, 0, 0⟩ : HandlerState), [])) ∧
    ((⟨0, false, [], true, false, 0, 0⟩ : HandlerState).inThinking = true ∧
     containsSub startMarker (("B</think>C").toList) = false ∧
     splitFirst endMarker (("B</think>C").toList)
       = some (("B").toList, ("C").toList) ∧
     deltaTexts (handleContent (⟨0, false, [], true, false, 0, 0⟩ : HandlerState)
         (("B</think>C").toList)).2
       = (if trimChars ((⟨0, false, [], true, false, 0, 0⟩ : HandlerState).thinkingBuffer
              ++ dropTrailingNewline ((("B").toList) ++ (("C").toList))) = []
          then []
          else [trimChars ((⟨0, false, [], true, false, 0, 0⟩ : HandlerState).thinkingBuffer
              ++ dropTrailingNewline ((("B").toList) ++ (("C").toList)))])) :=
  ⟨⟨rfl, by decide,
    C2_amended.1 initState (("A<think>B").toList) (("A").toList) (("B").toList)
      rfl (by decide)⟩,
   ⟨rfl, by decide, by decide,
    (C2_amended.2 (⟨0, false, [], true, false, 0, 0⟩ : HandlerState)
      (("B</think>C").toList) (("B").toList) (("C").toList)
      rfl (by decide) (by decide)).2.2⟩⟩

/-- C1 amended: split-independence fails in general (see the counterexample),
but the canonical split — the start marker alone, then marker-free reasoning
text `X` (non-blank, trim-invariant), then the end marker alone, then visible
text `Y` containing no start marker — does produce exactly the deltas
`X` then `Y`. -/
theorem C1_amended (X Y : List Char)
    (hX0 : X ≠ []) (hX1 : trimChars X = X)
    (hX2 : containsSub startMarker X = false)
    (hX3 : containsSub endMarker X = false)
    (hY0 : Y ≠ []) (hY1 : containsSub startMarker Y = false) :
    deltaTexts (runStream [startMarker, X, endMarker, Y]) = [X, Y] := by
  have e1 : handleContent (⟨0, true, [], false, false, 0, 0⟩ : HandlerState) startMarker
      = (⟨0, true, [], true, false, 0, 0⟩, []) := by decide
  have e2 : handleContent (⟨0, true, [], true, false, 0, 0⟩ : HandlerState) X
      = (⟨0, true, X, true, false, 0, 0⟩, []) := by
    rw [handleContent_passive _ X rfl hX2 hX3]
    rfl
  have e3 : handleContent (⟨0, true, X, true, false, 0, 0⟩ : HandlerState) endMarker
      = (⟨0, true, [], false, true, 0, 0⟩,
         [Event.content_block_start 0, Event.content_block_delta 0 X]) := by
    rw [handleContent_endMark _ endMarker rfl (by decide) (by decide)]
    have hbuf : (⟨0, true, X, true, false, 0, 0⟩ : HandlerState).thinkingBuffer
        ++ dropTrailingNewline (replaceFirst endMarker endMarker) = X := by
      rw [show dropTrailingNewline (replaceFirst endMarker endMarker)
            = ([] : List Char) from by decide, List.append_nil]
    rw [hbuf, hX1, if_pos hX0]
    rfl
  have e4 : handleContent (⟨0, true, [], false, true, 0, 0⟩ : HandlerState) Y
      = (⟨0, true, [], false, true, 0, 0⟩, [Event.content_block_delta 0 Y]) := by
    rw [handleContent_visible _ Y rfl hY1 hY0]
    rfl
  have e5 : endHandler (⟨0, true, [], false, true, 0, 0⟩ : HandlerState)
      = (⟨0, true, [], false, true, 0, 0⟩,
         [Event.content_block_stop 0, Event.message_delta 0, Event.message_stop]) := by
    decide
  have hP : processOps (⟨0, true, [], false, false, 0, 0⟩ : HandlerState)
      [Op.content startMarker, Op.content X, Op.content endMarker, Op.content Y]
      = (⟨0, true, [], false, true, 0, 0⟩,
         [Event.content_block_start 0, Event.content_block_delta 0 X,
          Event.content_block_delta 0 Y]) := by
    simp only [processOps, applyOp, e1, e2, e3, e4]
    rfl
  have hR : runStream [startMarker, X, endMarker, Y]
      = [Event.message_start 0 0, Event.content_block_start 0,
         Event.content_block_delta 0 X, Event.content_block_delta 0 Y,
         Event.content_block_stop 0, Event.message_delta 0, Event.message_stop] := by
    show (startHandler initState).2
        ++ (processOps (⟨0, true, [], false, false, 0, 0⟩ : HandlerState)
              [Op.content startMarker, Op.content X, Op.content endMarker, Op.content Y]).2
        ++ (endHandler (processOps (⟨0, true, [], false, false, 0, 0⟩ : HandlerState)
              [Op.content startMarker, Op.content X, Op.content endMarker,
               Op.content Y]).1).2
      = _
    rw [hP]
    rw [show (((⟨0, true, [], false, true, 0, 0⟩ : HandlerState),
          [Event.content_block_start 0, Event.content_block_delta 0 X,
           Event.content_block_delta 0 Y]) :
          HandlerState × List Event).1 = ⟨0, true, [], false, true, 0, 0⟩ from rfl, e5]
    rfl
  rw [hR]
  simp [deltaTexts, deltaText]

/-- Witness for C1 amended at `X = A`, `Y = B`. -/
theorem C1_amended_witness :
    ((("A").toList ≠ []) ∧ trimChars (("A").toList) = ("A").toList ∧
     containsSub startMarker (("A").toList) = false ∧
     containsSub endMarker (("A").toList) = false ∧
     (("B").toList ≠ []) ∧ containsSub startMarker (("B").toList) = false) ∧
    deltaTexts (runStream [startMarker, ("A").toList, endMarker, ("B").toList])
      = [("A").toList, ("B").toList] :=
  ⟨⟨by decide, by decide, by decide, by decide, by decide, by decide⟩,
   C1_amended (("A").toList) (("B").toList) (by decide) (by decide) (by decide)
     (by decide) (by decide) (by decide)⟩

/-- C8 amended: the newline handling is coarser than the claim states.  A
completed reasoning buffer is emitted with ALL leading and trailing
whitespace trimmed (internal whitespace preserved), and a blank buffer is
dropped entirely; visible fragments are emitted verbatim, with no stripping
at all. -/
theorem C8_amended :
    (∀ (X : List Char), containsSub startMarker X = false →
        containsSub endMarker X = false →
        deltaTexts (runStream [startMarker, X, endMarker])
          = (if trimChars X = [] then [] else [trimChars X])) ∧
    (∀ (st : HandlerState) (c : List Char), st.inThinking = false →
        containsSub startMarker c = false → c ≠ [] →
        deltaTexts (handleContent st c).2 = [c]) := by
  constructor
  · intro X h2 h3
    have e1 : handleContent (⟨0, true, [], false, false, 0, 0⟩ : HandlerState) startMarker
        = (⟨0, true, [], true, false, 0, 0⟩, []) := by decide
    have e2 : handleContent (⟨0, true, [], true, false, 0, 0⟩ : HandlerState) X
        = (⟨0, true, X, true, false, 0, 0⟩, []) := by
      rw [handleContent_passive _ X rfl h2 h3]
      rfl
    have e3 : handleContent (⟨0, true, X, true, false, 0, 0⟩ : HandlerState) endMarker
        = (if trimChars X ≠ [] then
            ((⟨0, true, [], false, true, 0, 0⟩ : HandlerState),
             [Event.content_block_start 0, Event.content_block_delta 0 (trimChars X)])
           else ((⟨0, true, [], false, false, 0, 0⟩ : HandlerState), [])) := by
      rw [handleContent_endMark _ endMarker rfl (by decide) (by decide)]
      have hbuf : (⟨0, true, X, true, false, 0, 0⟩ : HandlerState).thinkingBuffer
          ++ dropTrailingNewline (replaceFirst endMarker endMarker) = X := by
        rw [show dropTrailingNewline (replaceFirst endMarker endMarker)
              = ([] : List Char) from by decide, List.append_nil]
      rw [hbuf]
      by_cases h4 : trimChars X ≠ []
      · rw [if_pos h4, if_pos h4]
        rfl
      · rw [if_neg h4, if_neg h4]
    by_cases h4 : trimChars X = []
    · rw [if_pos h4]
      rw [if_neg (not_not_intro h4)] at e3
      have hP : processOps (⟨0, true, [], false, false, 0, 0⟩ : HandlerState)
          [Op.content startMarker, Op.content X, Op.content endMarker]
          = ((⟨0, true, [], false, false, 0, 0⟩ : HandlerState), []) := by
        simp only [processOps, applyOp, e1, e2, e3]
        rfl
      have hR : runStream [startMarker, X, endMarker]
          = [Event.message_start 0 0, Event.message_delta 0, Event.message_stop] := by
        show (startHandler initState).2
            ++ (processOps (⟨0, true, [], false, false, 0, 0⟩ : HandlerState)
                  [Op.content startMarker, Op.content X, Op.content endMarker]).2
            ++ (endHandler (processOps (⟨0, true, [], false, false, 0, 0⟩ : HandlerState)
                  [Op.content startMarker, Op.content X, Op.content endMarker]).1).2
          = _
        rw [hP]
        rfl
      rw [hR]
      rfl
    · rw [if_neg h4]
      rw [if_pos h4] at e3
      have hP : processOps (⟨0, true, [], false, false, 0, 0⟩ : HandlerState)
          [Op.content startMarker, Op.content X, Op.content endMarker]
          = ((⟨0, true, [], false, true, 0, 0⟩ : HandlerState),
             [Event.content_block_start 0, Event.content_block_delta 0 (trimChars X)]) := by
        simp only [processOps, applyOp, e1, e2, e3]
        rfl
      have hR : runStream [startMarker, X, endMarker]
          = [Event.message_start 0 0, Event.content_block_start 0,
             Event.content_block_delta 0 (trimChars X), Event.content_block_stop 0,
             Event.message_delta 0, Event.message_stop] := by
        show (startHandler initState).2
            ++ (processOps (⟨0, true, [], false, false, 0, 0⟩ : HandlerState)
                  [Op.content startMarker, Op.content X, Op.content endMarker]).2
            ++ (endHandler (processOps (⟨0, true, [], false, false, 0, 0⟩ : HandlerState)
                  [Op.content startMarker, Op.content X, Op.content endMarker]).1).2
          = _
        rw [hP]
        rw [show ((((⟨0, true, [], false, true, 0, 0⟩ : HandlerState),
              [Event.content_block_start 0, Event.content_block_delta 0 (trimChars X)]) :
              HandlerState × List Event)).1 = ⟨0, true, [], false, true, 0, 0⟩ from rfl]
        rw [show endHandler (⟨0, true, [], false, true, 0, 0⟩ : HandlerState)
              = (⟨0, true, [], false, true, 0, 0⟩,
                 [Event.content_block_stop 0, Event.message_delta 0,
                  Event.message_stop]) from by decide]
        rfl
      rw [hR]
      simp [deltaTexts, deltaText]
  · intro st c h1 h2 h3
    rw [handleContent_visible st c h1 h2 h3]
    exact deltaTexts_sendContentBlock st c

/-- Witness for C8 amended: the reasoning piece `  A  ` is emitted trimmed to
`A`, and the visible piece ` B ` is emitted verbatim. -/
theorem C8_amended_witness :
    (containsSub startMarker (("  A  ").toList) = false ∧
     containsSub endMarker (("  A  ").toList) = false ∧
     deltaTexts (runStream [startMarker, ("  A  ").toList, endMarker])
       = (if trimChars (("  A  ").toList) = []
          then [] else [trimChars (("  A  ").toList)])) ∧
    (initState.inThinking = false ∧
     containsSub startMarker ((" B ").toList) = false ∧
     ((" B ").toList ≠ []) ∧
     deltaTexts (handleContent initState ((" B ").toList)).2 = [(" B ").toList]) :=
  ⟨⟨by decide, by decide, C8_amended.1 (("  A  ").toList) (by decide) (by decide)⟩,
   ⟨rfl, by decide, by decide,
    C8_amended.2 initState ((" B ").toList) rfl (by decide) (by decide)⟩⟩

end ClaudeFormat
